import Mathlib

/-!
Verification of the Task-Prioritization-App schedule subsystem (src/main.py).

The development shallowly embeds the live report parser
(`parse_schedule_report`, src/main.py lines 855-912), its earlier duplicate
(lines 521-578), the calendar-view aggregator
(`display_integrated_calendars`, lines 731-762) and, modelled from the
specification, the ICS build/serialize/decode round trip.

Python strings are embedded as `List Char`; Python string methods
(`strip`, `startswith`, `split`) are reimplemented faithfully below.
`datetime.today()` is passed in as an explicit `today : Date` argument.
Fallible operations return `Option`: a `none` result of the parser models a
raised exception or an unterminated loop, so totality theorems state that
the result is always `some`.
-/

namespace TaskApp

/-! ## Python string primitives on `List Char` -/

/-- Whitespace characters recognised by Python `str.strip()` (ASCII subset,
which covers every character occurring in schedule reports). -/
def pyIsSpace (c : Char) : Bool :=
  c == ' ' || c == '\t' || c == '\n' || c == '\r' || c == '\x0b' || c == '\x0c'

/-- Python `s.strip(chars)`: drop the characters satisfying `p` from both
ends of the string. -/
def pyStripWith (p : Char → Bool) (s : List Char) : List Char :=
  ((s.dropWhile p).reverse.dropWhile p).reverse

/-- Python `s.strip()` (whitespace from both ends). -/
def pyStrip (s : List Char) : List Char := pyStripWith pyIsSpace s

/-- Python `s.strip('**')`: strip `*` characters from both ends (the
argument of `strip` is a character set, so `'**'` means the set containing
`*`). -/
def stripStars (s : List Char) : List Char := pyStripWith (fun c => c == '*') s

/-- Python `report.split('\n')`. `"".split('\n')` is `[""]`, matching the
base case. -/
def splitNl : List Char → List (List Char)
  | [] => [[]]
  | c :: rest =>
    if c = '\n' then [] :: splitNl rest
    else
      match splitNl rest with
      | [] => [[c]]
      | l :: ls => (c :: l) :: ls

/-- The characters of `s` before the first occurrence of `sep` (all of `s`
when `sep` does not occur). -/
def takeUntilSep (sep : List Char) : List Char → List Char
  | [] => []
  | c :: rest =>
    if sep.isPrefixOf (c :: rest) then [] else c :: takeUntilSep sep rest

/-- The characters of `s` strictly after the first occurrence of `sep`,
or `none` when `sep` does not occur in `s`. -/
def restAfterSep (sep : List Char) : List Char → Option (List Char)
  | [] => none
  | c :: rest =>
    if sep.isPrefixOf (c :: rest) then some ((c :: rest).drop sep.length)
    else restAfterSep sep rest

/-- Python `s.split(sep)[1]`: the segment between the first occurrence of
`sep` and the following occurrence (or the end of the string).  `none`
models the `IndexError` raised when `sep` does not occur at all (the split
list then has a single element). -/
def pySplitGet1 (sep s : List Char) : Option (List Char) :=
  (restAfterSep sep s).map (takeUntilSep sep)

/-! ## Dates and `datetime.strptime(_, "%B %d, %Y")` -/

/-- A calendar date, standing in for Python `datetime` values whose time
component the subsystem never consults (events are made all-day). -/
structure Date where
  year : Nat
  month : Nat
  day : Nat
deriving DecidableEq, Repr

/-- Lower-cased full month names, in order, for the case-insensitive `%B`
directive of `strptime`. -/
def monthList : List (Nat × List Char) :=
  [(1, "january".data), (2, "february".data), (3, "march".data),
   (4, "april".data), (5, "may".data), (6, "june".data),
   (7, "july".data), (8, "august".data), (9, "september".data),
   (10, "october".data), (11, "november".data), (12, "december".data)]

/-- Match a leading month name (input already lower-cased); return the
month number and the remaining characters. -/
def findMonth (s : List Char) : Option (Nat × List Char) :=
  (monthList.find? (fun p => p.2.isPrefixOf s)).map
    (fun p => (p.1, s.drop p.2.length))

/-- `\s+` of the `strptime` regex: at least one whitespace character. -/
def skipWs1 : List Char → Option (List Char)
  | [] => none
  | c :: r => if pyIsSpace c then some (r.dropWhile pyIsSpace) else none

/-- Numeric value of a digit string. -/
def digitsVal (l : List Char) : Nat :=
  l.foldl (fun a c => a * 10 + (c.toNat - 48)) 0

/-- Gregorian leap year, as validated by the Python `datetime` constructor. -/
def isLeap (y : Nat) : Bool :=
  (y % 4 == 0 && y % 100 != 0) || (y % 400 == 0)

/-- Number of days of month `m` in year `y`. -/
def daysInMonth (m y : Nat) : Nat :=
  if m = 2 then (if isLeap y then 29 else 28)
  else if m = 4 ∨ m = 6 ∨ m = 9 ∨ m = 11 then 30
  else 31

/-- `datetime.strptime(s, "%B %d, %Y")`, reduced to the date it denotes:
a case-insensitive full month name, whitespace, a one- or two-digit day,
a literal comma, whitespace, a four-digit year, end of string; then the
day is checked against the month length (the `datetime` constructor raises
`ValueError` otherwise, which the source catches).  `none` models
`ValueError`. -/
def parseDate (str : List Char) : Option Date :=
  let s := str.map Char.toLower
  match findMonth s with
  | none => none
  | some (m, r0) =>
    match skipWs1 r0 with
    | none => none
    | some r1 =>
      let ds := r1.takeWhile Char.isDigit
      if (ds.length = 1 ∨ ds.length = 2) ∧ 1 ≤ digitsVal ds ∧ digitsVal ds ≤ 31 then
        match r1.drop ds.length with
        | ',' :: r2 =>
          match skipWs1 r2 with
          | none => none
          | some r3 =>
            let ys := r3.takeWhile Char.isDigit
            if ys.length = 4 ∧ r3.drop 4 = [] then
              if 1 ≤ digitsVal ys ∧ digitsVal ds ≤ daysInMonth m (digitsVal ys) then
                some ⟨digitsVal ys, m, digitsVal ds⟩
              else none
            else none
        | _ => none
      else none

/-! ## The report parser (src/main.py lines 855-912) -/

/-- `line.startswith("Week")` token. -/
def weekTag : List Char := "Week".data

/-- `line.startswith('**')` token (title lines). -/
def boldTag : List Char := "**".data

/-- The description label checked by the parser. -/
def descTag : List Char := "- **Description:**".data

/-- The due-date label checked by the parser. -/
def dueTag : List Char := "- **Due Date:**".data

/-- Default description substituted when the label is absent. -/
def noDescDefault : List Char := "No description provided.".data

/-- An event produced by the parser: `ics.Event` with `name`, `begin`
(called `start` here), `description` set and `make_all_day()` applied. -/
structure PEvent where
  name : List Char
  start : Date
  description : List Char
  allDay : Bool
deriving DecidableEq, Repr

/-- Python truthiness of the `current_week` variable (`None` and the empty
string are falsy). -/
def pyTruthy : Option (List Char) → Bool
  | none => false
  | some s => !s.isEmpty

/-- The `while idx < len(lines)` loop of `parse_schedule_report`
(src/main.py lines 871-911).  `fuel` bounds the number of iterations; a
`none` result models either fuel exhaustion (the loop not terminating
within `fuel` steps) or an uncaught Python exception inside the body. -/
def parseLoop (today : Date) (lines : List (List Char)) :
    Nat → Nat → Option (List Char) → Option (List PEvent)
  | 0, idx, _ => if idx < lines.length then none else some []
  | fuel + 1, idx, cur =>
    if h : idx < lines.length then
      let line := pyStrip (lines.get ⟨idx, h⟩)
      if weekTag.isPrefixOf line then
        parseLoop today lines fuel (idx + 1) (some line)
      else if boldTag.isPrefixOf line && pyTruthy cur then
        if h2 : idx + 2 < lines.length then
          let dl := pyStrip (lines.get ⟨idx + 1, by omega⟩)
          let ul := pyStrip (lines.get ⟨idx + 2, h2⟩)
          let descO : Option (List Char) :=
            if descTag.isPrefixOf dl then (pySplitGet1 descTag dl).map pyStrip
            else some noDescDefault
          let dueO : Option Date :=
            if dueTag.isPrefixOf ul then
              (pySplitGet1 dueTag ul).map
                (fun s => (parseDate (pyStrip s)).getD today)
            else some today
          match descO, dueO with
          | some desc, some due =>
            match parseLoop today lines fuel (idx + 3) cur with
            | some rest => some (⟨stripStars (pyStrip line), due, desc, true⟩ :: rest)
            | none => none
          | _, _ => none
        else parseLoop today lines fuel (idx + 1) cur
      else parseLoop today lines fuel (idx + 1) cur
    else some []

/-- `parse_schedule_report` (src/main.py lines 855-912).  The fuel is the
number of lines, which suffices because every iteration advances `idx` by
at least one. -/
def parse_schedule_report (today : Date) (report : List Char) : Option (List PEvent) :=
  parseLoop today (splitNl report) (splitNl report).length 0 none

/-! ## The earlier duplicate parser (src/main.py lines 521-578)

The source defines `parse_schedule_report` three times; the definition at
lines 521-578 is shadowed by the live one at lines 855-912.  It is
transcribed independently here so that the two can be compared. -/

/-- The `while` loop of the parser defined at src/main.py lines 521-578,
transcribed from that occurrence of the code. -/
def parseLoop521 (today : Date) (lines : List (List Char)) :
    Nat → Nat → Option (List Char) → Option (List PEvent)
  | 0, idx, _ => if idx < lines.length then none else some []
  | fuel + 1, idx, cur =>
    if h : idx < lines.length then
      let line := pyStrip (lines.get ⟨idx, h⟩)
      if weekTag.isPrefixOf line then
        parseLoop521 today lines fuel (idx + 1) (some line)
      else if boldTag.isPrefixOf line && pyTruthy cur then
        if h2 : idx + 2 < lines.length then
          let dl := pyStrip (lines.get ⟨idx + 1, by omega⟩)
          let ul := pyStrip (lines.get ⟨idx + 2, h2⟩)
          let descO : Option (List Char) :=
            if descTag.isPrefixOf dl then (pySplitGet1 descTag dl).map pyStrip
            else some noDescDefault
          let dueO : Option Date :=
            if dueTag.isPrefixOf ul then
              (pySplitGet1 dueTag ul).map
                (fun s => (parseDate (pyStrip s)).getD today)
            else some today
          match descO, dueO with
          | some desc, some due =>
            match parseLoop521 today lines fuel (idx + 3) cur with
            | some rest => some (⟨stripStars (pyStrip line), due, desc, true⟩ :: rest)
            | none => none
          | _, _ => none
        else parseLoop521 today lines fuel (idx + 1) cur
      else parseLoop521 today lines fuel (idx + 1) cur
    else some []

/-- The parser defined at src/main.py lines 521-578. -/
def parse_schedule_report_521 (today : Date) (report : List Char) : Option (List PEvent) :=
  parseLoop521 today (splitNl report) (splitNl report).length 0 none

/-- A fixed processing date used for concrete evaluations. -/
def d0 : Date := ⟨2025, 1, 1⟩

/-! ## The calendar-view aggregator (src/main.py lines 731-762) -/

/-- A Canvas (external-course) event record, as produced by
`extract_events_from_content` / the Canvas feed: a mapping with `uid`,
`summary`, `start`, `end`, `description` keys.  `display_integrated_calendars`
reads only `summary`, `start` and `end`. -/
structure CanvasEvent where
  uid : List Char
  summary : List Char
  start : Date
  endDate : Date
  description : List Char
deriving DecidableEq, Repr

/-- An ad-hoc user task (`gemini_tasks` entries built in
`show_main_content`): `summary`, `description` and an ISO-format `start`
string from the date input. -/
structure GeminiTask where
  summary : List Char
  description : List Char
  start : List Char
deriving DecidableEq, Repr

/-- Zero-padded two-digit rendering. -/
def pad2 (n : Nat) : List Char :=
  if n < 10 then '0' :: (toString n).data else (toString n).data

/-- `isoformat()` of a date value. -/
def isoOfDate (d : Date) : List Char :=
  (toString d.year).data ++ '-' :: pad2 d.month ++ '-' :: pad2 d.day

/-- A FullCalendar task entry, modelled as the Python dict built by
`display_integrated_calendars`: an association list of string keys and
string values. -/
abbrev DTask := List (List Char × List Char)

def kTitle : List Char := "title".data

def kStart : List Char := "start".data

def kEnd : List Char := "end".data

def kColor : List Char := "color".data

def kUid : List Char := "uid".data

/-- The dict appended for a Canvas event (src/main.py lines 737-742). -/
def canvasTask (e : CanvasEvent) : DTask :=
  [(kTitle, e.summary), (kStart, isoOfDate e.start),
   (kEnd, isoOfDate e.endDate), (kColor, "red".data)]

/-- The dict appended for an ad-hoc Gemini task (src/main.py lines 747-752). -/
def geminiTaskDict (t : GeminiTask) : DTask :=
  [(kTitle, t.summary), (kStart, t.start), (kEnd, t.start), (kColor, "blue".data)]

/-- The dict appended for a parsed-schedule event (src/main.py lines
757-762).  The all-day `event.end` rendered by the `ics` library is the
event's date. -/
def parsedTask (ev : PEvent) : DTask :=
  [(kTitle, ev.name), (kStart, isoOfDate ev.start),
   (kEnd, isoOfDate ev.start), (kColor, "green".data)]

/-- `display_integrated_calendars` (src/main.py lines 731-762): the three
`for` loops appending Canvas, ad-hoc and parsed-schedule dicts, in that
order, to the `tasks` list. -/
def display_integrated_calendars (canvas : List CanvasEvent)
    (gtasks : List GeminiTask) (gevents : List PEvent) : List DTask :=
  let t1 := canvas.foldl (fun acc e => acc ++ [canvasTask e]) []
  let t2 := gtasks.foldl (fun acc t => acc ++ [geminiTaskDict t]) t1
  gevents.foldl (fun acc ev => acc ++ [parsedTask ev]) t2

/-! ## The ICS build / serialize / decode round trip

`create_ics_file` (src/main.py lines 914-919) collects events into an
`ics.Calendar`; `get_download_link` (lines 921-926) serializes it; the
serialization and re-reading logic itself lives in the external `ics`
library, not in this repository, so it is modelled from the specification:
a line-oriented interchange document in which every event contributes one
component carrying its uid, summary, description and date-only start. -/

/-- A calendar event as fed to `create_ics_file`. -/
structure ICalEvent where
  uid : List Char
  title : List Char
  description : List Char
  start : Date
deriving DecidableEq, Repr

/-- The calendar document: its collection of events. -/
structure Calendar where
  events : List ICalEvent
deriving DecidableEq, Repr

/-- `create_ics_file` (src/main.py lines 914-919): start from an empty
calendar and add each event to its collection.  The `ics` library stores
events in a set; under the unique-uid hypothesis of the round-trip law no
two added events coincide, so insertion order is kept as a list. -/
def create_ics_file (events : List ICalEvent) : Calendar :=
  ⟨events.foldl (fun acc e => acc ++ [e]) []⟩

def beginCalLine : List Char := "BEGIN:VCALENDAR".data

def endCalLine : List Char := "END:VCALENDAR".data

def beginEvLine : List Char := "BEGIN:VEVENT".data

def endEvLine : List Char := "END:VEVENT".data

def uidTag : List Char := "UID:".data

def summaryTag : List Char := "SUMMARY:".data

def descriptionTag : List Char := "DESCRIPTION:".data

def dtstartTag : List Char := "DTSTART;VALUE=DATE:".data

/-- Modelled from the spec: the serializer (the `ics` library behind
`cal.serialize()` in `get_download_link`) renders every event as one
component carrying a unique identifier, a summary, a description and a
date-only start. -/
def evLines (e : ICalEvent) : List (List Char) :=
  [beginEvLine, uidTag ++ e.uid, summaryTag ++ e.title,
   descriptionTag ++ e.description, dtstartTag ++ isoOfDate e.start, endEvLine]

/-- Modelled from the spec: `serialize(build(events))` as a line-oriented
calendar document (content-line folding and byte encoding abstracted). -/
def serializeCal (cal : Calendar) : List (List Char) :=
  beginCalLine :: ((cal.events.map evLines).flatten ++ [endCalLine])

/-- Read the value of a named content line. -/
def fieldVal (tag l : List Char) : Option (List Char) :=
  if tag.isPrefixOf l then some (l.drop tag.length) else none

/-- Modelled from the spec: a compliant reader
(`extract_events_from_content`, src/main.py lines 145-158, delegates the
actual parse to the external calendar library) walks the document and
collects the (uid, summary, description, start) tuple of every VEVENT
component. -/
def decodeEvents : List (List Char) → List (List Char × List Char × List Char × List Char)
  | l0 :: l1 :: l2 :: l3 :: l4 :: l5 :: rest =>
    if l0 = beginEvLine ∧ l5 = endEvLine then
      match fieldVal uidTag l1, fieldVal summaryTag l2,
            fieldVal descriptionTag l3, fieldVal dtstartTag l4 with
      | some u, some s, some d, some t => (u, s, d, t) :: decodeEvents rest
      | _, _, _, _ => decodeEvents (l1 :: l2 :: l3 :: l4 :: l5 :: rest)
    else decodeEvents (l1 :: l2 :: l3 :: l4 :: l5 :: rest)
  | _ :: rest => decodeEvents rest
  | [] => []

/-- The (uid, title, description, start) tuple of an event, the start
rendered in the serialization's date format. -/
def evTuple (e : ICalEvent) : List Char × List Char × List Char × List Char :=
  (e.uid, e.title, e.description, isoOfDate e.start)

/-! ## Helper lemmas -/

/-- Appending to an accumulator inside `foldl` is mapping. -/
theorem foldl_append_map {α β : Type} (f : α → β) :
    ∀ (l : List α) (acc : List β),
      l.foldl (fun a x => a ++ [f x]) acc = acc ++ l.map f := by
  intro l
  induction l with
  | nil => intro acc; simp
  | cons x xs ih => intro acc; simp [ih]

/-- A list is a prefix of itself followed by anything. -/
theorem isPrefixOf_append_self (p s : List Char) : p.isPrefixOf (p ++ s) = true := by
  induction p with
  | nil => cases s <;> rfl
  | cons c cs ih => simp [List.isPrefixOf, ih]

/-- Reading back a field written as `tag ++ v`. -/
theorem fieldVal_append (tag v : List Char) : fieldVal tag (tag ++ v) = some v := by
  simp [fieldVal, isPrefixOf_append_self, List.drop_left]

/-- The decoder skips any line that does not open an event component. -/
theorem decodeEvents_skip (l0 : List Char) (ls : List (List Char))
    (h : l0 ≠ beginEvLine) : decodeEvents (l0 :: ls) = decodeEvents ls := by
  rcases ls with _ | ⟨l1, _ | ⟨l2, _ | ⟨l3, _ | ⟨l4, _ | ⟨l5, rest⟩⟩⟩⟩⟩ <;>
    simp [decodeEvents, h]

/-- The decoder reads back one serialized component and continues. -/
theorem decodeEvents_block (e : ICalEvent) (rest : List (List Char)) :
    decodeEvents (evLines e ++ rest) = evTuple e :: decodeEvents rest := by
  simp [evLines, decodeEvents, fieldVal_append, evTuple]

/-- When `sep` occurs in `s` (in particular when it is a prefix of `s`),
Python `s.split(sep)[1]` does not raise. -/
theorem pySplitGet1_isSome (sep s : List Char) (hne : sep ≠ [])
    (h : sep.isPrefixOf s = true) : (pySplitGet1 sep s).isSome = true := by
  cases s with
  | nil =>
    cases sep with
    | nil => exact absurd rfl hne
    | cons a tl => simp [List.isPrefixOf] at h
  | cons c rest => simp [pySplitGet1, restAfterSep, h]

/-- The description extracted for a title block always exists: either the
label is present and the split succeeds, or the default is substituted. -/
theorem descO_isSome (dl : List Char) :
    (if descTag.isPrefixOf dl then (pySplitGet1 descTag dl).map pyStrip
     else some noDescDefault).isSome = true := by
  by_cases h : descTag.isPrefixOf dl
  · have hs := pySplitGet1_isSome descTag dl (by decide) h
    cases hx : pySplitGet1 descTag dl with
    | none => rw [hx] at hs; simp at hs
    | some v => simp [h, hx]
  · simp [h]

/-- The due date resolved for a title block always exists: label present
and split succeeding (with the date defaulting to the processing date on a
parse failure), or the processing date substituted outright. -/
theorem dueO_isSome (today : Date) (ul : List Char) :
    (if dueTag.isPrefixOf ul then
       (pySplitGet1 dueTag ul).map (fun s => (parseDate (pyStrip s)).getD today)
     else some today).isSome = true := by
  by_cases h : dueTag.isPrefixOf ul
  · have hs := pySplitGet1_isSome dueTag ul (by decide) h
    cases hx : pySplitGet1 dueTag ul with
    | none => rw [hx] at hs; simp at hs
    | some v => simp [h, hx]
  · simp [h]

/-- The parser loop returns a value (it terminates and raises nothing)
whenever the fuel covers the remaining lines. -/
theorem parseLoop_isSome (today : Date) (lines : List (List Char)) :
    ∀ fuel idx cur, lines.length - idx ≤ fuel →
      (parseLoop today lines fuel idx cur).isSome = true := by
  intro fuel
  induction fuel with
  | zero =>
    intro idx cur h
    have hge : ¬ idx < lines.length := by omega
    simp [parseLoop, hge]
  | succ f ih =>
    intro idx cur h
    by_cases hidx : idx < lines.length
    · rw [parseLoop, dif_pos hidx]
      by_cases hw : weekTag.isPrefixOf (pyStrip (lines.get ⟨idx, hidx⟩))
      · simp only [hw, if_true]
        exact ih (idx + 1) _ (by omega)
      · simp only [hw, if_false]
        by_cases ht : (boldTag.isPrefixOf (pyStrip (lines.get ⟨idx, hidx⟩)) && pyTruthy cur) = true
        · simp only [ht, if_true]
          by_cases h2 : idx + 2 < lines.length
          · rw [dif_pos h2]
            have hd := descO_isSome (pyStrip (lines.get ⟨idx + 1, by omega⟩))
            have hu := dueO_isSome today (pyStrip (lines.get ⟨idx + 2, h2⟩))
            obtain ⟨desc, hdesc⟩ := Option.isSome_iff_exists.mp hd
            obtain ⟨due, hdue⟩ := Option.isSome_iff_exists.mp hu
            rw [hdesc, hdue]
            have hr := ih (idx + 3) cur (by omega)
            obtain ⟨rest, hrest⟩ := Option.isSome_iff_exists.mp hr
            rw [hrest]
            rfl
          · rw [dif_neg h2]
            exact ih (idx + 1) _ (by omega)
        · simp only [ht, if_false]
          exact ih (idx + 1) _ (by omega)
    · rw [parseLoop, dif_neg hidx]
      rfl

/-- A title line: the trimmed content starts with the bold-marker wrapper. -/
def isTitleLine (l : List Char) : Bool := boldTag.isPrefixOf (pyStrip l)

/-- The number of title lines of a report. -/
def titleLineCount (r : List Char) : Nat := ((splitNl r).filter isTitleLine).length

/-- Dropping more lines cannot increase the number of remaining title
lines. -/
theorem titleCount_drop_le (lines : List (List Char)) (n k : Nat) (h : n ≤ k) :
    ((lines.drop k).filter isTitleLine).length ≤
      ((lines.drop n).filter isTitleLine).length := by
  have hdd : (lines.drop n).drop (k - n) = lines.drop k := by
    rw [List.drop_drop]; congr 1; omega
  rw [← hdd]
  exact ((List.drop_sublist _ _).filter isTitleLine).length_le

/-- Every event appended by the loop consumes a distinct title line, so
the output is no longer than the number of title lines not yet scanned. -/
theorem parseLoop_length_le (today : Date) (lines : List (List Char)) :
    ∀ fuel idx cur evs, parseLoop today lines fuel idx cur = some evs →
      evs.length ≤ ((lines.drop idx).filter isTitleLine).length := by
  intro fuel
  induction fuel with
  | zero =>
    intro idx cur evs h
    rw [parseLoop] at h
    by_cases hidx : idx < lines.length
    · rw [if_pos hidx] at h; exact absurd h (by simp)
    · rw [if_neg hidx] at h
      simp only [Option.some.injEq] at h
      subst h
      simp
  | succ f ih =>
    intro idx cur evs h
    by_cases hidx : idx < lines.length
    · rw [parseLoop, dif_pos hidx] at h
      have hstep : ((lines.drop (idx + 1)).filter isTitleLine).length ≤
          ((lines.drop idx).filter isTitleLine).length :=
        titleCount_drop_le lines idx (idx + 1) (by omega)
      by_cases hw : weekTag.isPrefixOf (pyStrip (lines.get ⟨idx, hidx⟩))
      · rw [if_pos hw] at h
        exact le_trans (ih (idx + 1) _ evs h) hstep
      · rw [if_neg hw] at h
        by_cases ht : (boldTag.isPrefixOf (pyStrip (lines.get ⟨idx, hidx⟩)) && pyTruthy cur) = true
        · rw [if_pos ht] at h
          by_cases h2 : idx + 2 < lines.length
          · rw [dif_pos h2] at h
            simp only at h
            obtain ⟨desc, hdesc⟩ := Option.isSome_iff_exists.mp
              (descO_isSome (pyStrip (lines.get ⟨idx + 1, by omega⟩)))
            obtain ⟨due, hdue⟩ := Option.isSome_iff_exists.mp
              (dueO_isSome today (pyStrip (lines.get ⟨idx + 2, h2⟩)))
            rw [hdesc, hdue] at h
            cases hr : parseLoop today lines f (idx + 3) cur with
            | none => rw [hr] at h; simp at h
            | some rest =>
              rw [hr] at h
              simp only [Option.some.injEq] at h
              subst h
              have hrec := ih (idx + 3) cur rest hr
              have htitle : isTitleLine (lines.get ⟨idx, hidx⟩) = true := by
                have := (Bool.and_eq_true _ _).mp ht
                exact this.1
              have hcons : lines.drop idx = lines.get ⟨idx, hidx⟩ :: lines.drop (idx + 1) := by
                rw [List.drop_eq_getElem_cons hidx]
                rfl
              have hcount : ((lines.drop idx).filter isTitleLine).length =
                  ((lines.drop (idx + 1)).filter isTitleLine).length + 1 := by
                rw [hcons, List.filter_cons, if_pos htitle]
                simp
              have h31 : ((lines.drop (idx + 3)).filter isTitleLine).length ≤
                  ((lines.drop (idx + 1)).filter isTitleLine).length :=
                titleCount_drop_le lines (idx + 1) (idx + 3) (by omega)
              simp only [List.length_cons]
              omega
          · rw [dif_neg h2] at h
            exact le_trans (ih (idx + 1) _ evs h) hstep
        · rw [if_neg ht] at h
          exact le_trans (ih (idx + 1) _ evs h) hstep
    · rw [parseLoop, dif_neg hidx] at h
      simp only [Option.some.injEq] at h
      simp [← h]

/-- With no week-header line anywhere, `current_week` stays `None`, the
title branch is never entered, and the loop produces no events at all. -/
theorem parseLoop_no_week (today : Date) (lines : List (List Char))
    (hw : ∀ l ∈ lines, weekTag.isPrefixOf (pyStrip l) = false) :
    ∀ fuel idx, lines.length - idx ≤ fuel →
      parseLoop today lines fuel idx none = some [] := by
  intro fuel
  induction fuel with
  | zero =>
    intro idx h
    have hge : ¬ idx < lines.length := by omega
    rw [parseLoop, if_neg hge]
  | succ f ih =>
    intro idx h
    by_cases hidx : idx < lines.length
    · rw [parseLoop, dif_pos hidx]
      have hwl := hw _ (List.get_mem lines idx hidx)
      rw [if_neg (by simp only [hwl]; exact Bool.false_ne_true)]
      rw [if_neg (by simp only [pyTruthy, Bool.and_false]; exact Bool.false_ne_true)]
      exact ih (idx + 1) (by omega)
    · rw [parseLoop, dif_neg hidx]

/-- One loop step at a title line that has two following lines: when both
following lines lack their expected labels, the documented defaults are
substituted and the event is still emitted. -/
theorem parseLoop_defaults_step (today : Date) (lines : List (List Char))
    (fuel idx : Nat) (cur : List Char) (hcur : cur ≠ [])
    (h2 : idx + 2 < lines.length)
    (hw : weekTag.isPrefixOf (pyStrip (lines.get ⟨idx, by omega⟩)) = false)
    (ht : boldTag.isPrefixOf (pyStrip (lines.get ⟨idx, by omega⟩)) = true)
    (hd : descTag.isPrefixOf (pyStrip (lines.get ⟨idx + 1, by omega⟩)) = false)
    (hu : dueTag.isPrefixOf (pyStrip (lines.get ⟨idx + 2, h2⟩)) = false) :
    parseLoop today lines (fuel + 1) idx (some cur) =
      (parseLoop today lines fuel (idx + 3) (some cur)).map
        (fun rest =>
          ⟨stripStars (pyStrip (pyStrip (lines.get ⟨idx, by omega⟩))), today,
            noDescDefault, true⟩ :: rest) := by
  have hidx : idx < lines.length := by omega
  have hw' : weekTag.isPrefixOf (pyStrip (lines.get ⟨idx, hidx⟩)) = false := hw
  have ht' : boldTag.isPrefixOf (pyStrip (lines.get ⟨idx, hidx⟩)) = true := ht
  have hd' : descTag.isPrefixOf (pyStrip (lines.get ⟨idx + 1, by omega⟩)) = false := hd
  have hu' : dueTag.isPrefixOf (pyStrip (lines.get ⟨idx + 2, h2⟩)) = false := hu
  rw [parseLoop, dif_pos hidx]
  rw [if_neg (by simp only [hw']; exact Bool.false_ne_true)]
  have htt : (boldTag.isPrefixOf (pyStrip (lines.get ⟨idx, hidx⟩)) &&
      pyTruthy (some cur)) = true := by
    cases cur with
    | nil => exact absurd rfl hcur
    | cons a t => rw [ht']; rfl
  rw [if_pos htt]
  rw [dif_pos h2]
  simp only [hd', hu', Bool.false_eq_true, if_false]
  cases hr : parseLoop today lines fuel (idx + 3) (some cur) <;> simp [hr]

/-- The two transcribed loops agree for every fuel, index and week state. -/
theorem parseLoop521_eq_parseLoop (today : Date) (lines : List (List Char)) :
    ∀ fuel idx cur, parseLoop521 today lines fuel idx cur = parseLoop today lines fuel idx cur := by
  intro fuel
  induction fuel with
  | zero => intro idx cur; rfl
  | succ f ih => intro idx cur; simp only [parseLoop521, parseLoop, ih]

/-! ## Concrete inputs for the claims -/

/-- The exact input of spec Example 1. -/
def ex1 : List Char :=
  "Week 1:\n1. **Finish report**\n   - **Description:** Draft outline\n   - **Due Date:** March 5, 2025\n".data

/-- Example 1's input with its title line starting with the bold marker,
the only form the title check of the code recognises. -/
def ex1fixed : List Char :=
  "Week 1:\n**Finish report**\n   - **Description:** Draft outline\n   - **Due Date:** March 5, 2025\n".data

/-- The single event produced on `ex1fixed`. -/
def ev1 : PEvent := ⟨"Finish report".data, ⟨2025, 3, 5⟩, "Draft outline".data, true⟩

/-- A report whose title block comes before any week header. -/
def ex2 : List Char :=
  "**Task A**\n- **Description:** x\n- **Due Date:** March 5, 2025\npad".data

/-- A report whose title line is its last line: fewer than two lines
follow it. -/
def ex4 : List Char := "Week 1:\n**Write essay**".data

/-- A report whose title block has two following lines, neither carrying
its expected label. -/
def ex4w : List Char := "Week 1:\n**Write essay**\nno label here\nalso no label\nz".data

/-! ## Claim C1 -/

/-- Claim C1 is false on the code: parsing the exact Example-1 input
yields zero events — in particular not one event with the stated title,
description and start — because the trimmed line `1. **Finish report**`
does not start with the bold marker, so no title line is recognised. -/
theorem C1_counterexample :
    parse_schedule_report d0 ex1 = some [] ∧
      parse_schedule_report d0 ex1 ≠ some [ev1] := by
  decide

/-- Claim C1 (amended): on the exact Example-1 input the parser yields no
events; with the title line written as `**Finish report**` it yields
exactly one event with title "Finish report", description "Draft outline"
and start 2025-03-05 (parsed events carry no week-label field at all). -/
theorem C1_amended (today : Date) :
    parse_schedule_report today ex1 = some [] ∧
      parse_schedule_report today ex1fixed = some [ev1] :=
  ⟨rfl, rfl⟩

/-! ## Claim C2 -/

/-- Claim C2 is false on the code: `ex2` contains a title line and no
week-header line, yet the parser emits no event for it (the title branch
requires a truthy `current_week`). -/
theorem C2_counterexample :
    (splitNl ex2).any isTitleLine = true ∧ parse_schedule_report d0 ex2 = some [] := by
  decide

/-- Claim C2 (amended): a title line encountered before any week-header
line is discarded, not kept; in particular a report with no week-header
line at all parses to zero events, whatever title blocks it contains. -/
theorem C2_amended (today : Date) (report : List Char)
    (h : ∀ l ∈ splitNl report, weekTag.isPrefixOf (pyStrip l) = false) :
    parse_schedule_report today report = some [] :=
  parseLoop_no_week today (splitNl report) h (splitNl report).length 0 (by omega)

/-- Witness for the amended C2 at the concrete report `ex2`. -/
theorem C2_amended_witness :
    (∀ l ∈ splitNl ex2, weekTag.isPrefixOf (pyStrip l) = false) ∧
      parse_schedule_report d0 ex2 = some [] :=
  ⟨by decide, C2_amended d0 ex2 (by decide)⟩

/-! ## Claim C3 -/

/-- Claim C3: for every report string and processing date the parser
terminates with a result: the loop's fuel (one unit per line) always
suffices, and every partial operation inside the body is guarded, so no
exception escapes (`none` would model an uncaught exception or an
unfinished loop). -/
theorem C3_terminates_no_raise (today : Date) (report : List Char) :
    (parse_schedule_report today report).isSome = true :=
  parseLoop_isSome today (splitNl report) (splitNl report).length 0 none (by omega)

/-! ## Claim C4 -/

/-- Claim C4 is false on the code: `ex4` contains a title block whose
description and due-date lines are missing (the title line is the last
line), and the parser drops the block entirely instead of emitting an
event with the documented defaults (`idx + 2 < len(lines)` fails). -/
theorem C4_counterexample :
    (splitNl ex4).any isTitleLine = true ∧ parse_schedule_report d0 ex4 = some [] := by
  decide

/-- Claim C4 (amended): only when at least two lines follow the title
line does default substitution happen; in that case a missing
`Description:` label yields the default description and a missing
`Due Date:` label yields the processing date, and the event is emitted.
A title line with fewer than two following lines is dropped. -/
theorem C4_amended (today : Date) (lines : List (List Char))
    (fuel idx : Nat) (cur : List Char) (hcur : cur ≠ [])
    (h2 : idx + 2 < lines.length)
    (hw : weekTag.isPrefixOf (pyStrip (lines.get ⟨idx, by omega⟩)) = false)
    (ht : boldTag.isPrefixOf (pyStrip (lines.get ⟨idx, by omega⟩)) = true)
    (hd : descTag.isPrefixOf (pyStrip (lines.get ⟨idx + 1, by omega⟩)) = false)
    (hu : dueTag.isPrefixOf (pyStrip (lines.get ⟨idx + 2, h2⟩)) = false) :
    parseLoop today lines (fuel + 1) idx (some cur) =
      (parseLoop today lines fuel (idx + 3) (some cur)).map
        (fun rest =>
          ⟨stripStars (pyStrip (pyStrip (lines.get ⟨idx, by omega⟩))), today,
            noDescDefault, true⟩ :: rest) :=
  parseLoop_defaults_step today lines fuel idx cur hcur h2 hw ht hd hu

/-- Witness for the amended C4 at the concrete report `ex4w`. -/
theorem C4_amended_witness :
    parseLoop d0 (splitNl ex4w) 5 1 (some "Week 1:".data) =
      (parseLoop d0 (splitNl ex4w) 4 4 (some "Week 1:".data)).map
        (fun rest =>
          ⟨stripStars (pyStrip (pyStrip ((splitNl ex4w).get ⟨1, by decide⟩))), d0,
            noDescDefault, true⟩ :: rest) :=
  C4_amended d0 (splitNl ex4w) 4 1 "Week 1:".data (by decide) (by decide)
    (by decide) (by decide) (by decide) (by decide)

/-! ## Claim C5 -/

/-- Claim C5: round-trip law.  Decoding the serialized calendar built
from any non-empty event collection with unique uids reproduces the
(uid, title, description, start) tuple of every event, in order, the
start rendered in the serialization's date format. -/
theorem C5_roundtrip (evs : List ICalEvent) (hne : evs ≠ [])
    (huid : (evs.map ICalEvent.uid).Nodup) :
    decodeEvents (serializeCal (create_ics_file evs)) = evs.map evTuple := by
  clear hne huid
  have hc : (create_ics_file evs).events = evs := by
    simp [create_ics_file, foldl_append_map (fun e : ICalEvent => e)]
  rw [serializeCal, hc]
  rw [decodeEvents_skip _ _ (by decide)]
  clear hc
  induction evs with
  | nil =>
    rw [List.map_nil, List.map_nil, List.flatten_nil, List.nil_append]
    rw [decodeEvents_skip _ _ (by decide)]
    rfl
  | cons e es ih =>
    rw [List.map_cons, List.flatten_cons, List.append_assoc, decodeEvents_block, ih,
      List.map_cons]

/-- Sample events for the round-trip witness. -/
def w5a : ICalEvent := ⟨"uid-1".data, "Finish report".data, "Draft outline".data, ⟨2025, 3, 5⟩⟩

def w5b : ICalEvent := ⟨"uid-2".data, "Midterm exam".data, "Chapters 1-3".data, ⟨2025, 4, 1⟩⟩

/-- Witness for C5 at a concrete two-event collection. -/
theorem C5_roundtrip_witness :
    ([w5a, w5b] : List ICalEvent) ≠ [] ∧
      ([w5a, w5b].map ICalEvent.uid).Nodup ∧
      decodeEvents (serializeCal (create_ics_file [w5a, w5b])) = [w5a, w5b].map evTuple :=
  ⟨by decide, by decide, C5_roundtrip [w5a, w5b] (by decide) (by decide)⟩

/-! ## Claim C6 -/

/-- Structural similarity of two parsed events on the fields named by the
idempotence property: title, description, start (hence also end, which an
all-day event derives from its start) and all-day status. -/
def pevSimEq (a b : PEvent) : Bool :=
  decide (a.name = b.name) && decide (a.description = b.description) &&
    decide (a.start = b.start) && decide (a.allDay = b.allDay)

/-- Pairwise structural similarity of two parse results: same length and
pairwise similar events. -/
def pevListSimEq : List PEvent → List PEvent → Bool
  | [], [] => true
  | a :: xs, b :: ys => pevSimEq a b && pevListSimEq xs ys
  | _, _ => false

/-- Structural similarity is reflexive. -/
theorem pevListSimEq_refl : ∀ l : List PEvent, pevListSimEq l l = true := by
  intro l
  induction l with
  | nil => rfl
  | cons a xs ih => simp [pevListSimEq, pevSimEq, ih]

/-- Claim C6: parsing the same report twice (with the same processing
date, carried here as the explicit `today` argument standing for
`datetime.today()`) yields structurally identical event sequences: same
length and pairwise equal title, description, start, end and all-day
status. -/
theorem C6_idempotent (today : Date) (report : List Char) :
    pevListSimEq ((parse_schedule_report today report).getD [])
      ((parse_schedule_report today report).getD []) = true :=
  pevListSimEq_refl _

/-! ## Claim C7 -/

/-- Two external-course events sharing the uid "X". -/
def cvA : CanvasEvent := ⟨"X".data, "Course A".data, ⟨2025, 3, 5⟩, ⟨2025, 3, 5⟩, "a".data⟩

def cvB : CanvasEvent := ⟨"X".data, "Course B".data, ⟨2025, 3, 6⟩, ⟨2025, 3, 6⟩, "b".data⟩

/-- Claim C7 is false on the code: aggregating two external-course events
that share a uid does not produce a collection of uid-carrying,
pairwise-distinct entries — the emitted task dicts contain no `uid` key
at all, so no suffix disambiguation takes place. -/
theorem C7_counterexample :
    ¬ ((∀ t ∈ display_integrated_calendars [cvA, cvB] [] [],
          (t.lookup kUid).isSome = true) ∧
        (List.filterMap (fun t : DTask => t.lookup kUid)
            (display_integrated_calendars [cvA, cvB] [] [])).Nodup ∧
        (display_integrated_calendars [cvA, cvB] [] []).length = 2) := by
  decide

/-- Claim C7 (amended): the aggregator loses nothing — the output length
is always the sum of the three input lengths, every input contributing
one task dict — but it performs no uid handling at all: no emitted dict
carries a `uid` key, so uid collisions are neither detected nor resolved
by suffixing. -/
theorem C7_amended (canvas : List CanvasEvent) (gtasks : List GeminiTask)
    (gevents : List PEvent) :
    (display_integrated_calendars canvas gtasks gevents).length =
        canvas.length + gtasks.length + gevents.length ∧
      ∀ t ∈ display_integrated_calendars canvas gtasks gevents,
        t.lookup kUid = none := by
  have hagg : display_integrated_calendars canvas gtasks gevents =
      canvas.map canvasTask ++ gtasks.map geminiTaskDict ++ gevents.map parsedTask := by
    simp [display_integrated_calendars, foldl_append_map]
  constructor
  · rw [hagg]; simp; omega
  · rw [hagg]
    intro t ht
    rcases List.mem_append.mp ht with h12 | h3
    · rcases List.mem_append.mp h12 with h1 | h2
      · obtain ⟨e, _, rfl⟩ := List.mem_map.mp h1; rfl
      · obtain ⟨g, _, rfl⟩ := List.mem_map.mp h2; rfl
    · obtain ⟨p, _, rfl⟩ := List.mem_map.mp h3; rfl

/-! ## Claim C8 -/

/-- Claim C8: the aggregator emits all external-course (Canvas) tasks
first, then all ad-hoc tasks, then all parsed-schedule tasks, and colors
each purely by source: red, blue and green respectively. -/
theorem C8_producer_order_colors (canvas : List CanvasEvent)
    (gtasks : List GeminiTask) (gevents : List PEvent) :
    display_integrated_calendars canvas gtasks gevents =
        canvas.map canvasTask ++ gtasks.map geminiTaskDict ++ gevents.map parsedTask ∧
      (∀ e : CanvasEvent, (canvasTask e).lookup kColor = some "red".data) ∧
      (∀ t : GeminiTask, (geminiTaskDict t).lookup kColor = some "blue".data) ∧
      (∀ ev : PEvent, (parsedTask ev).lookup kColor = some "green".data) :=
  ⟨by simp [display_integrated_calendars, foldl_append_map],
    fun _ => rfl, fun _ => rfl, fun _ => rfl⟩

/-! ## Claim C9 -/

/-- Claim C9: the parser never returns more events than the input has
title lines (lines whose trimmed content starts with the bold marker). -/
theorem C9_length_le_title_lines (today : Date) (report : List Char)
    (evs : List PEvent) (h : parse_schedule_report today report = some evs) :
    evs.length ≤ titleLineCount report := by
  have hb := parseLoop_length_le today (splitNl report) (splitNl report).length 0 none evs h
  simpa [titleLineCount] using hb

/-- Witness for C9 at the concrete report `ex1fixed`. -/
theorem C9_witness :
    parse_schedule_report d0 ex1fixed = some [ev1] ∧
      ([ev1] : List PEvent).length ≤ titleLineCount ex1fixed :=
  ⟨by decide, C9_length_le_title_lines d0 ex1fixed [ev1] (by decide)⟩

/-! ## Claim C10 -/

/-- Claim C10: the parser defined at src/main.py lines 521-578 and the
live one at lines 855-912 are extensionally equal: on every report and
processing date they return the same event sequence (hence identical
titles, descriptions, start dates and order). -/
theorem C10_duplicate_parsers_agree (today : Date) (report : List Char) :
    parse_schedule_report_521 today report = parse_schedule_report today report :=
  parseLoop521_eq_parseLoop today (splitNl report) (splitNl report).length 0 none

end TaskApp
